import Mathlib

/-!
Verification development for the `auto_uw` automated underwriting assistant.

The Python sources are shallowly embedded as Lean definitions:

* `src/auto_uw/agent.py` — the rating engine (`calculateBaseRate`,
  `calculateRevenueFactor`, `calculateEmployeeFactor`, `calculateClaimsFactor`,
  `calculateYearsFactor`, `calculatePremium`), the model-reply parser
  (`stripFencing`, `parseClaudeResponse`) and the conditions composer
  (`determineConditions`).
* `src/auto_uw/claude_context.py` — `parseModelResponse`.
* `src/auto_uw/document_store.py` — `addDocument`, `getDocument`,
  `deleteDocument`, `updateDocument`, `searchDocuments` over an explicit
  store state (in-memory cache plus on-disk files, both as key/value maps).

Python `float` currency amounts and factors are modelled as `ℚ`; every factor
literal in the source (0.8, 0.9, 1.0, ...) is exactly representable and each
claim compares values produced by a single arithmetic expression, so the `ℚ`
model is faithful for the properties proved here.  `datetime.now()` is passed
in explicitly as a `now : String` argument.  Strings are manipulated as
`List Char`, with Python's `in`, `str.split` and `str.strip` translated by
`containsSub`, `splitOnSub` and `pyStrip` below.
-/

/-- Backtick character (used by the code-fence markers in `agent.py`). -/
def btick : Char := Char.ofNat 96

/-- Double-quote character. -/
def quoteC : Char := Char.ofNat 34

/-- Backslash character. -/
def bslashC : Char := Char.ofNat 92

/-- Left curly brace character. -/
def lbrace : Char := Char.ofNat 123

/-- Right curly brace character. -/
def rbrace : Char := Char.ofNat 125

/-- Left square bracket character. -/
def lbrack : Char := Char.ofNat 91

/-- Right square bracket character. -/
def rbrack : Char := Char.ofNat 93

/-- Test whether `needle` is a prefix of `haystack` (character lists). -/
def swCL : List Char → List Char → Bool
  | [], _ => true
  | _ :: _, [] => false
  | n :: ns, h :: hs => n == h && swCL ns hs

/-- Python's substring test `needle in haystack` on strings. -/
def containsSub (needle : List Char) : List Char → Bool
  | [] => swCL needle []
  | c :: rest => swCL needle (c :: rest) || containsSub needle rest

/-- Worker for `splitOnSub`: scans left to right, splitting at each
non-overlapping occurrence of the separator `c :: cs`.  `acc` holds the
current chunk reversed. -/
def splitGo (c : Char) (cs : List Char) (acc : List Char) : List Char → List (List Char)
  | [] => [acc.reverse]
  | d :: rest =>
    if swCL (c :: cs) (d :: rest) then
      acc.reverse :: splitGo c cs [] (rest.drop cs.length)
    else
      splitGo c cs (d :: acc) rest
  termination_by s => s.length
  decreasing_by
    · simp only [List.length_drop, List.length_cons]; omega
    · simp only [List.length_cons]; omega

/-- Python's `str.split(sep)` for a non-empty separator (the empty-separator
case raises in Python and is never reached by the embedded code). -/
def splitOnSub (sep s : List Char) : List (List Char) :=
  match sep with
  | [] => [s]
  | c :: cs => splitGo c cs [] s

/-- Python `str.strip()` whitespace predicate (ASCII fragment). -/
def isPyWs (c : Char) : Bool :=
  c == ' ' || c == '\t' || c == '\n' || c == '\r' || c == Char.ofNat 11 || c == Char.ofNat 12

/-- Python's `str.strip()`: drop leading and trailing whitespace. -/
def pyStrip (s : List Char) : List Char :=
  ((s.dropWhile isPyWs).reverse.dropWhile isPyWs).reverse

/-- JSON values, the result type of Python's `json.loads`.  Numbers are
restricted to integers, the fragment exercised by the claims; object members
are kept in textual order. -/
inductive Json where
  | null : Json
  | bool (b : Bool) : Json
  | num (n : Int) : Json
  | str (s : String) : Json
  | arr (elems : List Json) : Json
  | obj (fields : List (String × Json)) : Json

/-- JSON whitespace, exactly the four characters Python's `json` accepts
between tokens. -/
def isJsonWs (c : Char) : Bool :=
  c == ' ' || c == '\t' || c == '\n' || c == '\r'

/-- Skip JSON whitespace. -/
def skipWs (s : List Char) : List Char := s.dropWhile isJsonWs

/-- Decode one character following a backslash in a JSON string literal. -/
def escChar (e : Char) : Option Char :=
  if e == quoteC then some quoteC
  else if e == bslashC then some bslashC
  else if e == '/' then some '/'
  else if e == 'n' then some '\n'
  else if e == 't' then some '\t'
  else if e == 'r' then some '\r'
  else if e == 'b' then some (Char.ofNat 8)
  else if e == 'f' then some (Char.ofNat 12)
  else none

/-- Parse the body of a JSON string literal (the opening quote already
consumed); returns the decoded characters and the input past the closing
quote. -/
def parseStrBody : List Char → Option (List Char × List Char)
  | [] => none
  | c :: rest =>
    if c == quoteC then some ([], rest)
    else if c == bslashC then
      match rest with
      | [] => none
      | e :: rest2 =>
        match escChar e with
        | none => none
        | some ch => (parseStrBody rest2).map (fun p => (ch :: p.1, p.2))
    else (parseStrBody rest).map (fun p => (c :: p.1, p.2))

/-- Parse a non-empty run of decimal digits into a natural number. -/
def parseDigits (s : List Char) : Option (Nat × List Char) :=
  let ds := s.takeWhile Char.isDigit
  let rest := s.dropWhile Char.isDigit
  if ds.isEmpty then none
  else some (ds.foldl (fun n c => 10 * n + (c.toNat - 48)) 0, rest)

mutual

/-- Parse one JSON value at the head of the input (leading whitespace already
skipped by the caller).  `fuel` only bounds recursion depth; `jsonParse`
supplies enough for any input it is called on. -/
def parseValue : Nat → List Char → Option (Json × List Char)
  | 0, _ => none
  | _ + 1, [] => none
  | fuel + 1, c :: rest =>
    if c == 'n' then
      if swCL ['u', 'l', 'l'] rest then some (Json.null, rest.drop 3) else none
    else if c == 't' then
      if swCL ['r', 'u', 'e'] rest then some (Json.bool true, rest.drop 3) else none
    else if c == 'f' then
      if swCL ['a', 'l', 's', 'e'] rest then some (Json.bool false, rest.drop 4) else none
    else if c == quoteC then
      (parseStrBody rest).map (fun p => (Json.str (String.mk p.1), p.2))
    else if c == '-' then
      (parseDigits rest).map (fun p => (Json.num (-(p.1 : Int)), p.2))
    else if c.isDigit then
      (parseDigits (c :: rest)).map (fun p => (Json.num (p.1 : Int), p.2))
    else if c == lbrack then
      parseArrRest fuel (skipWs rest)
    else if c == lbrace then
      parseObjRest fuel (skipWs rest)
    else none
  termination_by structural fuel _ => fuel

/-- Parse the rest of a JSON array (just past `[`, whitespace skipped). -/
def parseArrRest : Nat → List Char → Option (Json × List Char)
  | 0, _ => none
  | _ + 1, [] => none
  | fuel + 1, c :: rest =>
    if c == rbrack then some (Json.arr [], rest)
    else parseElems fuel [] (c :: rest)
  termination_by structural fuel _ => fuel

/-- Parse array elements separated by commas, up to the closing `]`. -/
def parseElems : Nat → List Json → List Char → Option (Json × List Char)
  | 0, _, _ => none
  | fuel + 1, acc, s =>
    match parseValue fuel s with
    | none => none
    | some (v, rest) =>
      match skipWs rest with
      | [] => none
      | c :: rest2 =>
        if c == ',' then parseElems fuel (v :: acc) (skipWs rest2)
        else if c == rbrack then some (Json.arr (v :: acc).reverse, rest2)
        else none
  termination_by structural fuel _ _ => fuel

/-- Parse the rest of a JSON object (just past the opening brace, whitespace
skipped). -/
def parseObjRest : Nat → List Char → Option (Json × List Char)
  | 0, _ => none
  | _ + 1, [] => none
  | fuel + 1, c :: rest =>
    if c == rbrace then some (Json.obj [], rest)
    else parseMembers fuel [] (c :: rest)
  termination_by structural fuel _ => fuel

/-- Parse object members `"key": value` separated by commas, up to the
closing brace. -/
def parseMembers : Nat → List (String × Json) → List Char → Option (Json × List Char)
  | 0, _, _ => none
  | fuel + 1, acc, s =>
    match s with
    | [] => none
    | c :: rest =>
      if c == quoteC then
        match parseStrBody rest with
        | none => none
        | some (key, rest2) =>
          match skipWs rest2 with
          | [] => none
          | c2 :: rest3 =>
            if c2 == ':' then
              match parseValue fuel (skipWs rest3) with
              | none => none
              | some (v, rest4) =>
                match skipWs rest4 with
                | [] => none
                | c3 :: rest5 =>
                  if c3 == ',' then
                    parseMembers fuel ((String.mk key, v) :: acc) (skipWs rest5)
                  else if c3 == rbrace then
                    some (Json.obj ((String.mk key, v) :: acc).reverse, rest5)
                  else none
            else none
      else none
  termination_by structural fuel _ _ => fuel

end

/-- Model of Python's `json.loads`: skip leading whitespace, parse one value,
and require only whitespace to remain; `none` models a raised
`json.JSONDecodeError`. -/
def jsonParse (s : List Char) : Option Json :=
  match parseValue (2 * s.length + 8) (skipWs s) with
  | some (v, rest) => if skipWs rest = [] then some v else none
  | none => none

mutual

/-- Model of Python's `json.dumps` with default separators, on the fragment
used by the document store (no string escaping needed by the stored data). -/
def dumpJson : Json → String
  | Json.null => "null"
  | Json.bool true => "true"
  | Json.bool false => "false"
  | Json.num n => toString n
  | Json.str s => "\"" ++ s ++ "\""
  | Json.arr l => "[" ++ dumpArr l ++ "]"
  | Json.obj l => "\x7b" ++ dumpObj l ++ "\x7d"

/-- Comma-joined rendering of array elements. -/
def dumpArr : List Json → String
  | [] => ""
  | [x] => dumpJson x
  | x :: y :: rest => dumpJson x ++ ", " ++ dumpArr (y :: rest)

/-- Comma-joined rendering of object members. -/
def dumpObj : List (String × Json) → String
  | [] => ""
  | [kv] => "\"" ++ kv.1 ++ "\": " ++ dumpJson kv.2
  | kv :: kv2 :: rest => "\"" ++ kv.1 ++ "\": " ++ dumpJson kv.2 ++ ", " ++ dumpObj (kv2 :: rest)

end

/-! ## Rating engine and model-reply parsing (`src/auto_uw/agent.py`) -/

/-- One entry of a `claims_history` list.  In the source a claim is a dict;
only `claim.get('amount', 0)` is consulted by the rating engine, so the model
keeps the amount, `none` standing for a dict without an `amount` key. -/
structure ClaimRec where
  amount : Option ℚ
deriving DecidableEq

/-- Incoming policy quote request (`PolicyRequest` in `agent.py`). -/
structure PolicyRequest where
  business_name : String
  business_type : String
  annual_revenue : ℚ
  employee_count : Int
  state : String
  city : String
  years_in_business : Int
  business_description : String
  claims_history : List ClaimRec
  additional_notes : Option String

/-- Risk-evaluation dictionary produced by the model, as consumed by
`_determine_conditions` (only `risk_profile` is read there). -/
structure RiskEvaluation where
  risk_profile : String
  risk_factors : List String
  risk_score : ℚ

/-- Base-rate table of `_calculate_base_rate`. -/
def baseRates : List (String × ℚ) :=
  [("restaurant", 5000), ("retail", 4000), ("manufacturing", 8000),
   ("construction", 10000), ("professional_services", 3000)]

/-- Embedding of `UnderwritingAgent._calculate_base_rate`:
`base_rates.get(business_type.lower(), 5000)`. -/
def calculateBaseRate (business_type : String) : ℚ :=
  (baseRates.lookup business_type.toLower).getD 5000

/-- Embedding of `UnderwritingAgent._calculate_revenue_factor`. -/
def calculateRevenueFactor (annual_revenue : ℚ) : ℚ :=
  if annual_revenue < 500000 then 0.8
  else if annual_revenue < 1000000 then 1.0
  else if annual_revenue < 2000000 then 1.2
  else 1.5

/-- Embedding of `UnderwritingAgent._calculate_employee_factor`. -/
def calculateEmployeeFactor (employee_count : Int) : ℚ :=
  if employee_count < 10 then 0.8
  else if employee_count < 25 then 1.0
  else if employee_count < 50 then 1.2
  else 1.5

/-- Total claimed amount: `sum(claim.get('amount', 0) for claim in claims_history)`. -/
def totalClaimAmount (claims_history : List ClaimRec) : ℚ :=
  (claims_history.map (fun c => c.amount.getD 0)).sum

/-- Embedding of `UnderwritingAgent._calculate_claims_factor`. -/
def calculateClaimsFactor (claims_history : List ClaimRec) : ℚ :=
  if claims_history.isEmpty then 0.9
  else
    let total_claims := claims_history.length
    let total_amount := totalClaimAmount claims_history
    if total_claims = 1 ∧ total_amount < 5000 then 1.1
    else if total_claims = 1 then 1.2
    else if total_claims = 2 then 1.3
    else 1.5

/-- Embedding of `UnderwritingAgent._calculate_years_factor`. -/
def calculateYearsFactor (years_in_business : Int) : ℚ :=
  if years_in_business < 2 then 1.2
  else if years_in_business < 5 then 1.1
  else if years_in_business < 10 then 1.0
  else 0.9

/-- Embedding of `UnderwritingAgent._calculate_premium`. -/
def calculatePremium (request : PolicyRequest) : ℚ :=
  let base_rate := calculateBaseRate request.business_type
  let revenue_factor := calculateRevenueFactor request.annual_revenue
  let employee_factor := calculateEmployeeFactor request.employee_count
  let claims_factor := calculateClaimsFactor request.claims_history
  let years_factor := calculateYearsFactor request.years_in_business
  base_rate * revenue_factor * employee_factor * claims_factor * years_factor

/-- The `"```json"` fence marker as characters. -/
def cccJson : List Char := [btick, btick, btick, 'j', 's', 'o', 'n']

/-- The `"```"` fence marker as characters. -/
def ccc : List Char := [btick, btick, btick]

/-- Fencing removal performed by `UnderwritingAgent._parse_claude_response`
before `json.loads`: under the guarding `in`-tests, the Python index `[1]`
(resp. `[0]`) never raises, so `getD` with a dummy default is faithful. -/
def stripFencing (text : List Char) : List Char :=
  if containsSub cccJson text then
    pyStrip ((splitOnSub ccc ((splitOnSub cccJson text).getD 1 [])).getD 0 [])
  else if containsSub ccc text then
    pyStrip ((splitOnSub ccc text).getD 1 [])
  else text

/-- Embedding of `UnderwritingAgent._parse_claude_response` on the reply
text; `none` models the raised `ValueError`. -/
def parseClaudeResponse (text : List Char) : Option Json :=
  jsonParse (stripFencing text)

/-- The fixed message of the `ValueError` raised by `_parse_claude_response`. -/
def parseFailMsg : String := "Failed to parse Claude's response"

/-- Result of `_parse_claude_response` with the raised error made explicit. -/
def parseClaudeResponseE (text : List Char) : Except String Json :=
  match parseClaudeResponse text with
  | some j => Except.ok j
  | none => Except.error parseFailMsg

/-- Result type of `ClaudeContext.parse_model_response`: the parsed data, the
`parsed: False` dict carrying the raw content, or the `handle_error` dict. -/
inductive PMResult where
  | ok (data : Json) : PMResult
  | notParsed (raw : List Char) : PMResult
  | errorResult : PMResult

/-- Index of the first occurrence of `c` (Python `str.find`, `-1` as `none`). -/
def firstIdx (c : Char) (s : List Char) : Option Nat :=
  s.findIdx? (fun d => d == c)

/-- Index of the last occurrence of `c` (Python `str.rfind`). -/
def lastIdx (c : Char) (s : List Char) : Option Nat :=
  (s.reverse.findIdx? (fun d => d == c)).map (fun i => s.length - 1 - i)

/-- Embedding of `ClaudeContext.parse_model_response`: extract the substring
from the first left brace to the last right brace and `json.loads` it; a
parse failure lands in `handle_error`. -/
def parseModelResponse (content : List Char) : PMResult :=
  match firstIdx lbrace content, lastIdx rbrace content with
  | some start_idx, some last_brace =>
    let end_idx := last_brace + 1
    if end_idx > start_idx then
      match jsonParse ((content.take end_idx).drop start_idx) with
      | some d => PMResult.ok d
      | none => PMResult.errorResult
    else PMResult.notParsed content
  | _, _ => PMResult.notParsed content

/-- Embedding of `UnderwritingAgent._determine_conditions`. -/
def determineConditions (request : PolicyRequest) (risk_evaluation : RiskEvaluation) :
    List String :=
  let conditions : List String := []
  let conditions :=
    if risk_evaluation.risk_profile.toLower = "high" then
      conditions ++
        ["Monthly safety inspections required",
         "Employee training program implementation",
         "Security system installation",
         "Regular risk assessment reviews"]
    else conditions
  let conditions :=
    if request.business_type.toLower = "restaurant" then
      conditions ++
        ["Food safety certification required",
         "Regular kitchen equipment maintenance",
         "Employee hygiene training"]
    else if request.business_type.toLower = "manufacturing" then
      conditions ++
        ["Equipment safety inspections",
         "Worker safety training",
         "Emergency response plan"]
    else conditions
  let conditions :=
    if request.claims_history.isEmpty then conditions
    else conditions ++ ["Claims review every 6 months", "Risk mitigation plan required"]
  conditions

/-! ## Document store (`src/auto_uw/document_store.py`)

A stored document is a Python dict; it is modelled as an association list
`List (String × Json)` with unique keys, as Python dicts guarantee.  The
store state carries the on-disk files and the in-memory cache, both keyed by
`doc_id`. -/

/-- A stored document: a Python dict from field name to value. -/
abbrev Doc := List (String × Json)

/-- First-match lookup in an association list (Python `d[k]` / `k in d`). -/
def assocLookup {α : Type} : List (String × α) → String → Option α
  | [], _ => none
  | (k', v) :: rest, k => if k' = k then some v else assocLookup rest k

/-- Python dict assignment `d[k] = v`: replace in place if the key is
present, append otherwise. -/
def assocSet {α : Type} : List (String × α) → String → α → List (String × α)
  | [], k, v => [(k, v)]
  | (k', v') :: rest, k, v =>
    if k' = k then (k, v) :: rest else (k', v') :: assocSet rest k v

/-- Python `del d[k]` on a unique-key dict: remove the key. -/
def assocErase {α : Type} (l : List (String × α)) (k : String) : List (String × α) :=
  l.filter (fun p => p.1 ≠ k)

/-- Errors raised by the document store: `ValueError` for validation,
`FileNotFoundError` both for a cache miss and for `Path.unlink` on a missing
file. -/
inductive DocErr where
  | valueError (msg : String) : DocErr
  | fileNotFoundError (msg : String) : DocErr
deriving DecidableEq

/-- Document-store state: the on-disk JSON files and the in-memory
`self.documents` cache, each a map from `doc_id` to document. -/
structure StoreState where
  files : List (String × Doc)
  cache : List (String × Doc)

/-- The document dict built by `add_document` from its arguments. -/
def mkDoc (doc_id title content : String) (m : List (String × Json)) (now : String) : Doc :=
  [("id", Json.str doc_id),
   ("title", Json.str title),
   ("content", Json.str content),
   ("metadata", Json.obj m),
   ("type", (assocLookup m "type").getD (Json.str "document")),
   ("last_updated", Json.str now),
   ("applicable_states", (assocLookup m "applicable_states").getD (Json.arr [Json.str "all"]))]

/-- Embedding of `DocumentStore.add_document`; `now` is
`datetime.now().isoformat()`. -/
def addDocument (s : StoreState) (doc_id title content : String) (metadata : Json)
    (now : String) : Except DocErr StoreState :=
  if doc_id = "" then Except.error (DocErr.valueError "Document ID cannot be empty")
  else if title = "" then Except.error (DocErr.valueError "Document title cannot be empty")
  else if content = "" then Except.error (DocErr.valueError "Document content cannot be empty")
  else
    match metadata with
    | Json.obj m =>
      let doc : Doc := mkDoc doc_id title content m now
      Except.ok { files := assocSet s.files doc_id doc, cache := assocSet s.cache doc_id doc }
    | _ => Except.error (DocErr.valueError "Metadata must be a dictionary")

/-- Embedding of `DocumentStore.get_document`. -/
def getDocument (s : StoreState) (doc_id : String) : Except DocErr Doc :=
  match assocLookup s.cache doc_id with
  | none => Except.error (DocErr.fileNotFoundError ("Document " ++ doc_id ++ " not found"))
  | some doc => Except.ok doc

/-- Embedding of `DocumentStore.delete_document`; `Path.unlink` on a file
that is missing from disk raises `FileNotFoundError` before the cache entry
is touched. -/
def deleteDocument (s : StoreState) (doc_id : String) : Except DocErr StoreState :=
  match assocLookup s.cache doc_id with
  | none => Except.error (DocErr.fileNotFoundError ("Document " ++ doc_id ++ " not found"))
  | some _ =>
    match assocLookup s.files doc_id with
    | none => Except.error (DocErr.fileNotFoundError "unlink")
    | some _ => Except.ok { files := assocErase s.files doc_id, cache := assocErase s.cache doc_id }

/-- One iteration of `update_document`'s loop over `kwargs.items()`:
`if key in doc: doc[key] = value`. -/
def updStep (d : Doc) (kv : String × Json) : Doc :=
  if (assocLookup d kv.1).isSome then assocSet d kv.1 kv.2 else d

/-- Embedding of `DocumentStore.update_document`: look the document up (a
miss raises `FileNotFoundError` via `get_document`), overwrite each supplied
key that is already present, stamp `last_updated`, write the file and
re-cache. -/
def updateDocument (s : StoreState) (doc_id : String) (kwargs : List (String × Json))
    (now : String) : Except DocErr StoreState :=
  match assocLookup s.cache doc_id with
  | none => Except.error (DocErr.fileNotFoundError ("Document " ++ doc_id ++ " not found"))
  | some doc =>
    let doc := kwargs.foldl updStep doc
    let doc := assocSet doc "last_updated" (Json.str now)
    Except.ok { files := assocSet s.files doc_id doc, cache := assocSet s.cache doc_id doc }

/-- The `doc["content"]` string consulted by `search_documents` (stored
documents always carry a string content, by construction in `add_document`). -/
def contentOf (doc : Doc) : String :=
  match assocLookup doc "content" with
  | some (Json.str s) => s
  | _ => ""

/-- The `doc["metadata"]` value consulted by `search_documents`. -/
def metadataOf (doc : Doc) : Json :=
  match assocLookup doc "metadata" with
  | some j => j
  | none => Json.null

/-- Embedding of `DocumentStore.search_documents` over the cache's value
list: a document is appended when the query occurs in its content, and —
only otherwise, thanks to the `continue` — when metadata search is on and the
query occurs in the dumped metadata. -/
def searchDocuments (documents : List Doc) (query : String) (search_metadata : Bool) :
    List Doc :=
  let q := query.toLower.toList
  documents.filter
    (fun doc =>
      containsSub q (contentOf doc).toLower.toList ||
        (search_metadata && containsSub q (dumpJson (metadataOf doc)).toLower.toList))

/-- A reply wrapping text in a ```json code fence, as tolerated by
`_parse_claude_response`. -/
def fenceJsonWrap (j : List Char) : List Char :=
  cccJson ++ ('\n' :: (j ++ ('\n' :: ccc)))

/-- A reply wrapping text in a plain ``` code fence. -/
def fenceWrap (j : List Char) : List Char :=
  ccc ++ ('\n' :: (j ++ ('\n' :: ccc)))

/-- Sample stored document used by the store witnesses. -/
def wDoc : Doc :=
  [("id", Json.str "d"), ("title", Json.str "T"), ("content", Json.str "body"),
   ("last_updated", Json.str "t0")]

/-- Sample store state holding `wDoc` under key `"d"`. -/
def wStore : StoreState := { files := [("d", wDoc)], cache := [("d", wDoc)] }

/-! ## Association-list lemmas (Python dict semantics) -/

theorem assocLookup_set_self {α : Type} (l : List (String × α)) (k : String) (v : α) :
    assocLookup (assocSet l k v) k = some v := by
  induction l with
  | nil => simp [assocSet, assocLookup]
  | cons p rest ih =>
    by_cases h : p.1 = k
    · simp [assocSet, assocLookup, h]
    · simp [assocSet, assocLookup, h, ih]

theorem assocLookup_set_ne {α : Type} (l : List (String × α)) (k k' : String) (v : α)
    (h : k ≠ k') : assocLookup (assocSet l k v) k' = assocLookup l k' := by
  induction l with
  | nil => simp [assocSet, assocLookup, h]
  | cons p rest ih =>
    by_cases hp : p.1 = k
    · simp [assocSet, assocLookup, hp, h]
    · simp [assocSet, assocLookup, hp, ih]

theorem assocLookup_erase_self {α : Type} (l : List (String × α)) (k : String) :
    assocLookup (assocErase l k) k = none := by
  induction l with
  | nil => simp [assocErase, assocLookup]
  | cons p rest ih =>
    by_cases hp : p.1 = k
    · simpa [assocErase, hp] using ih
    · simpa [assocErase, assocLookup, hp] using ih

theorem updStep_lookup_ne (d : Doc) (kv : String × Json) (k : String) (h : kv.1 ≠ k) :
    assocLookup (updStep d kv) k = assocLookup d k := by
  unfold updStep
  split_ifs with hp
  · exact assocLookup_set_ne _ _ _ _ h
  · rfl

theorem updStep_isSome (d : Doc) (kv : String × Json) (k : String) :
    (assocLookup (updStep d kv) k).isSome = (assocLookup d k).isSome := by
  unfold updStep
  split_ifs with hp
  · by_cases h : kv.1 = k
    · subst h; simp [assocLookup_set_self, hp]
    · rw [assocLookup_set_ne _ _ _ _ h]
  · rfl

theorem updFold_lookup_notin (kwargs : List (String × Json)) (d : Doc) (k : String)
    (h : k ∉ kwargs.map Prod.fst) :
    assocLookup (kwargs.foldl updStep d) k = assocLookup d k := by
  induction kwargs generalizing d with
  | nil => rfl
  | cons kv rest ih =>
    simp only [List.map_cons, List.mem_cons] at h
    push_neg at h
    rw [List.foldl_cons, ih _ h.2, updStep_lookup_ne _ _ _ (fun he => h.1 he.symm)]

theorem updFold_isSome (kwargs : List (String × Json)) (d : Doc) (k : String) :
    (assocLookup (kwargs.foldl updStep d) k).isSome = (assocLookup d k).isSome := by
  induction kwargs generalizing d with
  | nil => rfl
  | cons kv rest ih => rw [List.foldl_cons, ih, updStep_isSome]

theorem updFold_lookup_mem (kwargs : List (String × Json)) (d : Doc) (k : String) (v : Json)
    (hnd : (kwargs.map Prod.fst).Nodup) (hmem : (k, v) ∈ kwargs)
    (hpres : (assocLookup d k).isSome) :
    assocLookup (kwargs.foldl updStep d) k = some v := by
  induction kwargs generalizing d with
  | nil => cases hmem
  | cons kv rest ih =>
    simp only [List.map_cons, List.nodup_cons] at hnd
    rcases List.mem_cons.mp hmem with hhd | htl
    · subst hhd
      have hstep : updStep d (k, v) = assocSet d k v := by simp [updStep, hpres]
      rw [List.foldl_cons, hstep,
        updFold_lookup_notin rest _ k hnd.1, assocLookup_set_self]
    · have hk : k ∈ rest.map Prod.fst := List.mem_map.mpr ⟨(k, v), htl, rfl⟩
      have hne : kv.1 ≠ k := fun he => hnd.1 (he ▸ hk)
      rw [List.foldl_cons]
      exact ih _ hnd.2 htl (by rw [updStep_isSome]; exact hpres)

/-! ## Claim theorems: rating engine -/

/-- C1: the premium returned by `_calculate_premium` is exactly the product
base_rate × revenue_factor × employee_factor × claims_factor × years_factor
of the breakdown factors, so it is reproducible from the breakdown. -/
theorem C1_premium_is_breakdown_product (request : PolicyRequest) :
    calculatePremium request =
      calculateBaseRate request.business_type *
        calculateRevenueFactor request.annual_revenue *
        calculateEmployeeFactor request.employee_count *
        calculateClaimsFactor request.claims_history *
        calculateYearsFactor request.years_in_business := rfl

/-- C4: `_calculate_claims_factor` returns 0.9 on no claims, 1.1 on one claim
totalling under 5000, 1.2 on one claim otherwise, 1.3 on two claims, 1.5 on
three or more. -/
theorem C4_claims_factor_cases (claims : List ClaimRec) :
    (claims = [] → calculateClaimsFactor claims = 0.9) ∧
    (claims.length = 1 → totalClaimAmount claims < 5000 → calculateClaimsFactor claims = 1.1) ∧
    (claims.length = 1 → 5000 ≤ totalClaimAmount claims → calculateClaimsFactor claims = 1.2) ∧
    (claims.length = 2 → calculateClaimsFactor claims = 1.3) ∧
    (3 ≤ claims.length → calculateClaimsFactor claims = 1.5) := by
  refine ⟨fun h => by simp [h, calculateClaimsFactor], ?_, ?_, ?_, ?_⟩
  · intro h1 h2
    have hne : claims.isEmpty = false := by cases claims <;> simp_all
    simp [calculateClaimsFactor, hne, h1, h2]
  · intro h1 h2
    have hne : claims.isEmpty = false := by cases claims <;> simp_all
    have hnl : ¬ totalClaimAmount claims < 5000 := not_lt.mpr h2
    simp [calculateClaimsFactor, hne, h1, hnl]
  · intro h1
    have hne : claims.isEmpty = false := by cases claims <;> simp_all
    have hn1 : claims.length ≠ 1 := by omega
    simp [calculateClaimsFactor, hne, h1, hn1]
  · intro h1
    have hne : claims.isEmpty = false := by cases claims <;> simp_all
    have hn1 : claims.length ≠ 1 := by omega
    have hn2 : claims.length ≠ 2 := by omega
    simp [calculateClaimsFactor, hne, hn1, hn2]

/-- Witness for C4 at the spec's own sample inputs. -/
theorem C4_claims_factor_cases_witness :
    calculateClaimsFactor [] = 0.9 ∧
    calculateClaimsFactor [⟨some 4000⟩] = 1.1 ∧
    calculateClaimsFactor [⟨some 6000⟩] = 1.2 ∧
    calculateClaimsFactor [⟨some 1⟩, ⟨some 2⟩] = 1.3 ∧
    calculateClaimsFactor [⟨none⟩, ⟨none⟩, ⟨none⟩] = 1.5 :=
  ⟨(C4_claims_factor_cases []).1 rfl,
   (C4_claims_factor_cases _).2.1 rfl (by norm_num [totalClaimAmount]),
   (C4_claims_factor_cases _).2.2.1 rfl (by norm_num [totalClaimAmount]),
   (C4_claims_factor_cases _).2.2.2.1 rfl,
   (C4_claims_factor_cases _).2.2.2.2 (by decide)⟩

/-- C5: `_calculate_revenue_factor` is a total non-decreasing step function
with thresholds 500000 / 1000000 / 2000000 and values 0.8 / 1.0 / 1.2 / 1.5;
each exact boundary takes the upper bracket's factor. -/
theorem C5_revenue_factor_monotone_step :
    (∀ r1 r2 : ℚ, r1 ≤ r2 → calculateRevenueFactor r1 ≤ calculateRevenueFactor r2) ∧
    (∀ r : ℚ, r < 500000 → calculateRevenueFactor r = 0.8) ∧
    (∀ r : ℚ, 500000 ≤ r → r < 1000000 → calculateRevenueFactor r = 1.0) ∧
    (∀ r : ℚ, 1000000 ≤ r → r < 2000000 → calculateRevenueFactor r = 1.2) ∧
    (∀ r : ℚ, 2000000 ≤ r → calculateRevenueFactor r = 1.5) := by
  refine ⟨?_, ?_, ?_, ?_, ?_⟩
  · intro r1 r2 h
    unfold calculateRevenueFactor
    split_ifs <;> push_neg at * <;> linarith
  · intro r h; simp [calculateRevenueFactor, h]
  · intro r h1 h2
    unfold calculateRevenueFactor
    rw [if_neg (not_lt.mpr h1), if_pos h2]
  · intro r h1 h2
    unfold calculateRevenueFactor
    rw [if_neg (by linarith), if_neg (not_lt.mpr h1), if_pos h2]
  · intro r h1
    unfold calculateRevenueFactor
    rw [if_neg (by linarith), if_neg (by linarith), if_neg (not_lt.mpr h1)]

/-- Witness for C5: monotonicity across a threshold and the three exact
boundary values landing in the upper bracket. -/
theorem C5_revenue_factor_monotone_step_witness :
    calculateRevenueFactor 0 ≤ calculateRevenueFactor 600000 ∧
    calculateRevenueFactor 500000 = 1.0 ∧
    calculateRevenueFactor 1000000 = 1.2 ∧
    calculateRevenueFactor 2000000 = 1.5 :=
  ⟨C5_revenue_factor_monotone_step.1 0 600000 (by norm_num),
   C5_revenue_factor_monotone_step.2.2.1 500000 (by norm_num) (by norm_num),
   C5_revenue_factor_monotone_step.2.2.2.1 1000000 (by norm_num) (by norm_num),
   C5_revenue_factor_monotone_step.2.2.2.2 2000000 (by norm_num)⟩

/-- C9: the conditions list is the cumulative concatenation of the high-risk
block, the restaurant block, the manufacturing block and the claims-history
block, each contributed independently of the others. -/
theorem C9_conditions_cumulative (request : PolicyRequest) (risk_evaluation : RiskEvaluation) :
    determineConditions request risk_evaluation =
      (if risk_evaluation.risk_profile.toLower = "high" then
        ["Monthly safety inspections required",
         "Employee training program implementation",
         "Security system installation",
         "Regular risk assessment reviews"] else []) ++
      (if request.business_type.toLower = "restaurant" then
        ["Food safety certification required",
         "Regular kitchen equipment maintenance",
         "Employee hygiene training"] else []) ++
      (if request.business_type.toLower = "manufacturing" then
        ["Equipment safety inspections",
         "Worker safety training",
         "Emergency response plan"] else []) ++
      (if request.claims_history.isEmpty then []
       else ["Claims review every 6 months", "Risk mitigation plan required"]) := by
  unfold determineConditions
  split_ifs with h1 h2 h3 <;> simp_all

/-- C10: `search_documents` examines each cached document once and appends it
at most once (the `continue` after a content match prevents a metadata
re-match), so the result is a duplicate-free selection from the store. -/
theorem C10_search_at_most_once (documents : List Doc) (query : String)
    (search_metadata : Bool) :
    List.Sublist (searchDocuments documents query search_metadata) documents ∧
    (documents.Nodup → (searchDocuments documents query search_metadata).Nodup) := by
  constructor
  · simp only [searchDocuments]
    exact List.filter_sublist _
  · intro h
    simp only [searchDocuments]
    exact h.filter _

/-- Witness for C10 on a store whose single document matches both content and
metadata with metadata search enabled. -/
theorem C10_search_at_most_once_witness :
    List.Nodup [[("content", Json.str "alpha"), ("metadata", Json.str "alpha")]] ∧
    (searchDocuments [[("content", Json.str "alpha"), ("metadata", Json.str "alpha")]]
      "alpha" true).Nodup :=
  ⟨by simp, (C10_search_at_most_once _ _ _).2 (by simp)⟩

/-! ## Claim theorems: document store -/

/-- C6: `update_document` fails with `FileNotFoundError` on a missing id; on
success it stamps `last_updated`, leaves every field not named in the
supplied kwargs (besides `last_updated`) unchanged, silently ignores
supplied keys absent from the stored document, and overwrites each supplied
key that is present. -/
theorem C6_update_document (s : StoreState) (doc_id : String)
    (kwargs : List (String × Json)) (now : String) :
    (assocLookup s.cache doc_id = none →
      updateDocument s doc_id kwargs now =
        Except.error (DocErr.fileNotFoundError ("Document " ++ doc_id ++ " not found"))) ∧
    (∀ doc, assocLookup s.cache doc_id = some doc →
      ∃ doc',
        updateDocument s doc_id kwargs now =
          Except.ok { files := assocSet s.files doc_id doc',
                      cache := assocSet s.cache doc_id doc' } ∧
        assocLookup doc' "last_updated" = some (Json.str now) ∧
        (∀ k, k ≠ "last_updated" → k ∉ kwargs.map Prod.fst →
          assocLookup doc' k = assocLookup doc k) ∧
        (∀ k, k ≠ "last_updated" → assocLookup doc k = none → assocLookup doc' k = none) ∧
        ((kwargs.map Prod.fst).Nodup → ∀ k v, (k, v) ∈ kwargs → k ≠ "last_updated" →
          (assocLookup doc k).isSome → assocLookup doc' k = some v)) := by
  constructor
  · intro h
    simp [updateDocument, h]
  · intro doc h
    refine ⟨assocSet (kwargs.foldl updStep doc) "last_updated" (Json.str now),
      by simp [updateDocument, h], assocLookup_set_self _ _ _, ?_, ?_, ?_⟩
    · intro k hk hnotin
      rw [assocLookup_set_ne _ _ _ _ (Ne.symm hk), updFold_lookup_notin _ _ _ hnotin]
    · intro k hk hnone
      rw [assocLookup_set_ne _ _ _ _ (Ne.symm hk)]
      have hs := updFold_isSome kwargs doc k
      rw [hnone] at hs
      rcases hres : assocLookup (kwargs.foldl updStep doc) k with _ | v
      · rfl
      · rw [hres] at hs; simp at hs
    · intro hnd k v hmem hk hpres
      rw [assocLookup_set_ne _ _ _ _ (Ne.symm hk)]
      exact updFold_lookup_mem _ _ _ _ hnd hmem hpres

/-- Witness for C6: update an existing document, overwriting `title`,
ignoring the unknown key `bogus`, refreshing `last_updated` and preserving
`content`. -/
theorem C6_update_document_witness :
    ∃ doc', updateDocument wStore "d" [("title", Json.str "T2"), ("bogus", Json.num 7)] "t1" =
        Except.ok { files := assocSet wStore.files "d" doc',
                    cache := assocSet wStore.cache "d" doc' } ∧
      assocLookup doc' "last_updated" = some (Json.str "t1") ∧
      assocLookup doc' "content" = some (Json.str "body") ∧
      assocLookup doc' "bogus" = none ∧
      assocLookup doc' "title" = some (Json.str "T2") := by
  obtain ⟨doc', h1, h2, h3, h4, h5⟩ :=
    (C6_update_document wStore "d" [("title", Json.str "T2"), ("bogus", Json.num 7)] "t1").2
      wDoc rfl
  refine ⟨doc', h1, h2, ?_, ?_, ?_⟩
  · rw [h3 "content" (by decide) (by decide)]; rfl
  · exact h4 "bogus" (by decide) rfl
  · exact h5 (by decide) "title" (Json.str "T2") (by simp) (by decide) rfl

/-- C7: `add_document` validates doc_id/title/content non-empty and metadata
being a mapping, and a subsequent `get_document` of the same id returns a
document whose id, title, content and metadata equal the arguments of the
add. -/
theorem C7_add_then_get (s : StoreState) (doc_id title content : String) (metadata : Json)
    (now : String) :
    (doc_id = "" → addDocument s doc_id title content metadata now =
      Except.error (DocErr.valueError "Document ID cannot be empty")) ∧
    (doc_id ≠ "" → title = "" → addDocument s doc_id title content metadata now =
      Except.error (DocErr.valueError "Document title cannot be empty")) ∧
    (doc_id ≠ "" → title ≠ "" → content = "" → addDocument s doc_id title content metadata now =
      Except.error (DocErr.valueError "Document content cannot be empty")) ∧
    (doc_id ≠ "" → title ≠ "" → content ≠ "" → (∀ m, metadata ≠ Json.obj m) →
      addDocument s doc_id title content metadata now =
        Except.error (DocErr.valueError "Metadata must be a dictionary")) ∧
    (doc_id ≠ "" → title ≠ "" → content ≠ "" → ∀ m, metadata = Json.obj m →
      ∃ doc s', addDocument s doc_id title content metadata now = Except.ok s' ∧
        getDocument s' doc_id = Except.ok doc ∧
        assocLookup doc "id" = some (Json.str doc_id) ∧
        assocLookup doc "title" = some (Json.str title) ∧
        assocLookup doc "content" = some (Json.str content) ∧
        assocLookup doc "metadata" = some metadata) := by
  refine ⟨?_, ?_, ?_, ?_, ?_⟩
  · intro h; simp [addDocument, h]
  · intro h1 h2; simp [addDocument, h1, h2]
  · intro h1 h2 h3; simp [addDocument, h1, h2, h3]
  · intro h1 h2 h3 h4
    cases metadata with
    | obj m => exact absurd rfl (h4 m)
    | null => simp [addDocument, h1, h2, h3]
    | bool b => simp [addDocument, h1, h2, h3]
    | num n => simp [addDocument, h1, h2, h3]
    | str s2 => simp [addDocument, h1, h2, h3]
    | arr l => simp [addDocument, h1, h2, h3]
  · intro h1 h2 h3 m hm
    subst hm
    refine ⟨mkDoc doc_id title content m now,
      { files := assocSet s.files doc_id (mkDoc doc_id title content m now),
        cache := assocSet s.cache doc_id (mkDoc doc_id title content m now) },
      ?_, ?_, ?_, ?_, ?_, ?_⟩
    · simp [addDocument, h1, h2, h3]
    · simp [getDocument, assocLookup_set_self]
    · simp [mkDoc, assocLookup]
    · simp [mkDoc, assocLookup]
    · simp [mkDoc, assocLookup]
    · simp [mkDoc, assocLookup]

/-- Witness for C7: add a document to the sample store and read it back. -/
theorem C7_add_then_get_witness :
    ∃ doc s', addDocument wStore "d2" "Title" "Body"
        (Json.obj [("type", Json.str "guideline")]) "t2" = Except.ok s' ∧
      getDocument s' "d2" = Except.ok doc ∧
      assocLookup doc "id" = some (Json.str "d2") ∧
      assocLookup doc "title" = some (Json.str "Title") ∧
      assocLookup doc "content" = some (Json.str "Body") ∧
      assocLookup doc "metadata" = some (Json.obj [("type", Json.str "guideline")]) :=
  (C7_add_then_get wStore "d2" "Title" "Body" _ "t2").2.2.2.2
    (by decide) (by decide) (by decide) _ rfl

/-- C8: `delete_document` fails with `FileNotFoundError` on a missing id, and
after a successful delete the id is gone from both the cache and the files,
so a subsequent `get_document` fails with `FileNotFoundError`. -/
theorem C8_delete_then_get (s : StoreState) (doc_id : String) :
    (assocLookup s.cache doc_id = none →
      deleteDocument s doc_id =
        Except.error (DocErr.fileNotFoundError ("Document " ++ doc_id ++ " not found"))) ∧
    (∀ s', deleteDocument s doc_id = Except.ok s' →
      getDocument s' doc_id =
        Except.error (DocErr.fileNotFoundError ("Document " ++ doc_id ++ " not found")) ∧
      assocLookup s'.cache doc_id = none ∧ assocLookup s'.files doc_id = none) := by
  constructor
  · intro h; simp [deleteDocument, h]
  · intro s' h
    unfold deleteDocument at h
    rcases hc : assocLookup s.cache doc_id with _ | doc
    · rw [hc] at h; simp at h
    · rw [hc] at h
      rcases hf : assocLookup s.files doc_id with _ | fdoc
      · rw [hf] at h; simp at h
      · rw [hf] at h
        simp only [Except.ok.injEq] at h
        subst h
        exact ⟨by simp [getDocument, assocLookup_erase_self],
          assocLookup_erase_self _ _, assocLookup_erase_self _ _⟩

/-- Witness for C8: delete the sample store's only document and observe the
subsequent lookup failures. -/
theorem C8_delete_then_get_witness :
    getDocument { files := assocErase wStore.files "d", cache := assocErase wStore.cache "d" }
        "d" = Except.error (DocErr.fileNotFoundError ("Document " ++ "d" ++ " not found")) ∧
    assocLookup (assocErase wStore.cache "d") "d" = none ∧
    assocLookup (assocErase wStore.files "d") "d" = none :=
  (C8_delete_then_get wStore "d").2
    { files := assocErase wStore.files "d", cache := assocErase wStore.cache "d" } rfl

/-! ## String lemmas for the fencing analysis -/

theorem swCL_append_self (s t : List Char) : swCL s (s ++ t) = true := by
  induction s with
  | nil => rfl
  | cons c cs ih => simp [swCL, ih]

theorem splitGo_skip_nb : ∀ (j : List Char), (∀ a ∈ j, a ≠ btick) → ∀ (cs t acc : List Char),
    splitGo btick cs acc (j ++ t) = splitGo btick cs (j.reverse ++ acc) t := by
  intro j
  induction j with
  | nil => intro _ cs t acc; simp
  | cons a rest ih =>
    intro hj cs t acc
    have ha : (btick == a) = false :=
      beq_eq_false_iff_ne.mpr (Ne.symm (hj a (List.mem_cons_self a rest)))
    have hrest : ∀ b ∈ rest, b ≠ btick := fun b hb => hj b (List.mem_cons_of_mem _ hb)
    rw [List.cons_append]
    simp only [splitGo, swCL, ha, Bool.false_and, Bool.false_eq_true, if_false]
    rw [ih hrest cs t (a :: acc)]
    simp [List.reverse_cons, List.append_assoc]

theorem containsSub_skip_nb : ∀ (j : List Char), (∀ a ∈ j, a ≠ btick) → ∀ (cs t : List Char),
    containsSub (btick :: cs) (j ++ t) = containsSub (btick :: cs) t := by
  intro j
  induction j with
  | nil => intro _ cs t; simp
  | cons a rest ih =>
    intro hj cs t
    have ha : (btick == a) = false :=
      beq_eq_false_iff_ne.mpr (Ne.symm (hj a (List.mem_cons_self a rest)))
    have hrest : ∀ b ∈ rest, b ≠ btick := fun b hb => hj b (List.mem_cons_of_mem _ hb)
    rw [List.cons_append]
    simp only [containsSub, swCL, ha, Bool.false_and, Bool.false_or]
    exact ih hrest cs t

theorem splitGo_no_occ : ∀ (s : List Char) (c : Char) (cs : List Char),
    containsSub (c :: cs) s = false → ∀ acc, splitGo c cs acc s = [acc.reverse ++ s] := by
  intro s
  induction s with
  | nil => intro c cs _ acc; simp [splitGo]
  | cons d rest ih =>
    intro c cs h acc
    simp only [containsSub, Bool.or_eq_false_iff] at h
    simp only [splitGo, h.1, Bool.false_eq_true, if_false]
    rw [ih c cs h.2 (d :: acc)]
    simp

theorem dropWhileAppend (p : Char → Bool) (a b : List Char) :
    List.dropWhile p (a ++ b) =
      if a.all p then List.dropWhile p b else List.dropWhile p a ++ b := by
  induction a with
  | nil => simp
  | cons c rest ih =>
    by_cases hc : p c
    · simp [List.dropWhile_cons, hc, ih]
    · simp [List.dropWhile_cons, hc]

theorem pyStrip_pad (j : List Char) (hs : pyStrip j = j) :
    pyStrip ('\n' :: (j ++ ['\n'])) = j := by
  have hnl : isPyWs '\n' = true := rfl
  by_cases hall : j.all isPyWs
  · have h1 : List.dropWhile isPyWs j = [] :=
      List.dropWhile_eq_nil_iff.mpr (fun x hx => List.all_eq_true.mp hall x hx)
    have h2 : j = [] := by
      have h3 := hs
      rw [pyStrip, h1] at h3
      simpa using h3.symm
    subst h2
    rfl
  · have h1 : List.dropWhile isPyWs (j ++ ['\n']) = List.dropWhile isPyWs j ++ ['\n'] := by
      rw [dropWhileAppend, if_neg (by simp [hall])]
    calc pyStrip ('\n' :: (j ++ ['\n']))
        = ((List.dropWhile isPyWs (j ++ ['\n'])).reverse.dropWhile isPyWs).reverse := by
          rw [pyStrip, List.dropWhile_cons_of_pos hnl]
      _ = ((List.dropWhile isPyWs j ++ ['\n']).reverse.dropWhile isPyWs).reverse := by rw [h1]
      _ = (('\n' :: (List.dropWhile isPyWs j).reverse).dropWhile isPyWs).reverse := by
          simp [List.reverse_append]
      _ = ((List.dropWhile isPyWs j).reverse.dropWhile isPyWs).reverse := by
          rw [List.dropWhile_cons_of_pos hnl]
      _ = pyStrip j := rfl
      _ = j := hs

theorem containsSub_append_self (s t : List Char) (h : s ≠ []) :
    containsSub s (s ++ t) = true := by
  cases s with
  | nil => exact absurd rfl h
  | cons c cs =>
    rw [List.cons_append]
    simp only [containsSub]
    rw [← List.cons_append, swCL_append_self]
    simp

theorem splitGo_here (c : Char) (cs acc t : List Char) :
    splitGo c cs acc ((c :: cs) ++ t) = acc.reverse :: splitGo c cs [] t := by
  have hsw : swCL (c :: cs) (c :: (cs ++ t)) = true := by
    rw [← List.cons_append]; exact swCL_append_self _ _
  rw [List.cons_append]
  simp [splitGo, hsw, List.drop_left]

theorem splitGo_shift (c : Char) (cs acc : List Char) (d : Char) (rest : List Char)
    (h : swCL (c :: cs) (d :: rest) = false) :
    splitGo c cs acc (d :: rest) = splitGo c cs (d :: acc) rest := by
  simp only [splitGo, h, Bool.false_eq_true, if_false]

theorem splitGo_ccc_mid (j : List Char) (hj : ∀ a ∈ j, a ≠ btick) :
    splitGo btick [btick, btick] [] ('\n' :: (j ++ ('\n' :: ccc))) =
      ['\n' :: (j ++ ['\n']), []] := by
  rw [splitGo_shift btick [btick, btick] [] '\n' (j ++ ('\n' :: ccc)) rfl]
  rw [splitGo_skip_nb j hj [btick, btick] ('\n' :: ccc) ['\n']]
  rw [splitGo_shift btick [btick, btick] (j.reverse ++ ['\n']) '\n' ccc rfl]
  rw [show (ccc : List Char) = (btick :: [btick, btick]) ++ [] from rfl]
  rw [splitGo_here btick [btick, btick] _ []]
  simp [splitGo]

theorem splitOnSub_ccc_mid (j : List Char) (hj : ∀ a ∈ j, a ≠ btick) :
    splitOnSub ccc ('\n' :: (j ++ ('\n' :: ccc))) = ['\n' :: (j ++ ['\n']), []] :=
  splitGo_ccc_mid j hj

theorem splitOnSub_cccJson_fenceJson (j : List Char) (hj : ∀ a ∈ j, a ≠ btick) :
    splitOnSub cccJson (fenceJsonWrap j) = [[], '\n' :: (j ++ ('\n' :: ccc))] := by
  have hno : containsSub (btick :: [btick, btick, 'j', 's', 'o', 'n'])
      ('\n' :: (j ++ ('\n' :: ccc))) = false := by
    have hb : (btick == '\n') = false := rfl
    simp only [containsSub, swCL, hb, Bool.false_and, Bool.false_or]
    rw [containsSub_skip_nb j hj]
    decide
  show splitGo btick [btick, btick, 'j', 's', 'o', 'n'] [] (fenceJsonWrap j) = _
  rw [show fenceJsonWrap j =
      (btick :: [btick, btick, 'j', 's', 'o', 'n']) ++ ('\n' :: (j ++ ('\n' :: ccc))) from rfl]
  rw [splitGo_here]
  rw [splitGo_no_occ _ _ _ hno []]
  simp

theorem splitOnSub_ccc_fenceWrap (j : List Char) (hj : ∀ a ∈ j, a ≠ btick) :
    splitOnSub ccc (fenceWrap j) = [[], '\n' :: (j ++ ['\n']), []] := by
  show splitGo btick [btick, btick] [] (fenceWrap j) = _
  rw [show fenceWrap j =
      (btick :: [btick, btick]) ++ ('\n' :: (j ++ ('\n' :: ccc))) from rfl]
  rw [splitGo_here]
  rw [splitGo_ccc_mid j hj]
  rfl

theorem containsSub_cccJson_fenceWrap (j : List Char) (hj : ∀ a ∈ j, a ≠ btick) :
    containsSub cccJson (fenceWrap j) = false := by
  have e1 : (('j' : Char) == '\n') = false := rfl
  have e2 : (btick == '\n') = false := rfl
  rw [show (cccJson : List Char) = btick :: [btick, btick, 'j', 's', 'o', 'n'] from rfl]
  rw [show fenceWrap j = btick :: btick :: btick :: '\n' :: (j ++ ('\n' :: ccc)) from rfl]
  simp only [containsSub, swCL, e1, e2, beq_self_eq_true, Bool.true_and, Bool.false_and,
    Bool.and_false, Bool.false_or, Bool.or_false]
  rw [containsSub_skip_nb j hj]
  decide

theorem stripFencing_fenceJson (j : List Char) (hj : ∀ a ∈ j, a ≠ btick)
    (hs : pyStrip j = j) : stripFencing (fenceJsonWrap j) = j := by
  have h1 : containsSub cccJson (fenceJsonWrap j) = true := by
    rw [show fenceJsonWrap j = cccJson ++ ('\n' :: (j ++ ('\n' :: ccc))) from rfl]
    exact containsSub_append_self _ _ (by decide)
  have h2 := splitOnSub_cccJson_fenceJson j hj
  have h3 := splitOnSub_ccc_mid j hj
  simp [stripFencing, h1, h2, h3, pyStrip_pad j hs]

theorem stripFencing_fenceWrap (j : List Char) (hj : ∀ a ∈ j, a ≠ btick)
    (hs : pyStrip j = j) : stripFencing (fenceWrap j) = j := by
  have h0 := containsSub_cccJson_fenceWrap j hj
  have h1 : containsSub ccc (fenceWrap j) = true := by
    rw [show fenceWrap j = ccc ++ ('\n' :: (j ++ ('\n' :: ccc))) from rfl]
    exact containsSub_append_self _ _ (by decide)
  have h2 := splitOnSub_ccc_fenceWrap j hj
  simp [stripFencing, h0, h1, h2, pyStrip_pad j hs]

theorem stripFencing_nb (j : List Char) (hj : ∀ a ∈ j, a ≠ btick) :
    stripFencing j = j := by
  have h1 : containsSub cccJson j = false := by
    have h := containsSub_skip_nb j hj [btick, btick, 'j', 's', 'o', 'n'] []
    rw [List.append_nil] at h
    rw [show (cccJson : List Char) = btick :: [btick, btick, 'j', 's', 'o', 'n'] from rfl, h]
    rfl
  have h2 : containsSub ccc j = false := by
    have h := containsSub_skip_nb j hj [btick, btick] []
    rw [List.append_nil] at h
    rw [show (ccc : List Char) = btick :: [btick, btick] from rfl, h]
    rfl
  simp [stripFencing, h1, h2]

/-! ## Claim theorems: model-reply parsing -/

/-- C2 counterexample: on the fencing-free reply `note {"a": 1}`,
`_parse_claude_response` does not fall back to the first-brace/last-brace
substring — it fails — while the brace substring itself is valid JSON; the
brace extraction is performed by `ClaudeContext.parse_model_response`
instead. -/
theorem C2_no_brace_fallback_counterexample :
    parseClaudeResponse (("note \x7b\"a\": 1\x7d").toList) = none ∧
    jsonParse (("\x7b\"a\": 1\x7d").toList) = some (Json.obj [("a", Json.num 1)]) ∧
    parseModelResponse (("note \x7b\"a\": 1\x7d").toList) =
      PMResult.ok (Json.obj [("a", Json.num 1)]) :=
  ⟨rfl, rfl, rfl⟩

/-- C2 (amended): `_parse_claude_response` strips ```json or ``` fencing, so
a reply wrapping backtick-free, whitespace-trimmed JSON text in fencing
parses to the same result as the unwrapped text; with no fencing present the
entire reply is JSON-parsed as-is, with no brace-extraction fallback. -/
theorem C2_fencing_amended (j : List Char) (hj : ∀ a ∈ j, a ≠ btick)
    (hs : pyStrip j = j) :
    parseClaudeResponse (fenceJsonWrap j) = jsonParse j ∧
    parseClaudeResponse (fenceWrap j) = jsonParse j ∧
    parseClaudeResponse j = jsonParse j := by
  refine ⟨?_, ?_, ?_⟩ <;> unfold parseClaudeResponse
  · rw [stripFencing_fenceJson j hj hs]
  · rw [stripFencing_fenceWrap j hj hs]
  · rw [stripFencing_nb j hj]

/-- Witness for C2 (amended) at the reply `{"a": 1}` under both fence
styles. -/
theorem C2_fencing_amended_witness :
    parseClaudeResponse (fenceJsonWrap (("\x7b\"a\": 1\x7d").toList)) =
      jsonParse (("\x7b\"a\": 1\x7d").toList) ∧
    parseClaudeResponse (fenceWrap (("\x7b\"a\": 1\x7d").toList)) =
      jsonParse (("\x7b\"a\": 1\x7d").toList) ∧
    parseClaudeResponse (("\x7b\"a\": 1\x7d").toList) =
      jsonParse (("\x7b\"a\": 1\x7d").toList) :=
  C2_fencing_amended _ (by decide) (by decide)

/-- C3 counterexample: the `ValueError` raised by `_parse_claude_response`
carries a fixed message that does not include the raw reply (the raw reply is
only printed), and a reply that parses as JSON but lacks the required keys is
returned without any error. -/
theorem C3_fixed_message_counterexample :
    parseClaudeResponseE (("totally not json reply").toList) = Except.error parseFailMsg ∧
    containsSub (("totally not json reply").toList) parseFailMsg.toList = false ∧
    parseClaudeResponseE (("\x7b\x7d").toList) = Except.ok (Json.obj []) :=
  ⟨rfl, by decide, rfl⟩

/-- C3 (amended): a reply in which no JSON can be parsed (after fencing
removal) makes `_parse_claude_response` raise `ValueError` with the fixed
message `Failed to parse Claude's response` — not including the raw reply —
and never yields a result; a reply that parses is returned as-is, with no
required-key check. -/
theorem C3_parse_error_amended (text : List Char) :
    (jsonParse (stripFencing text) = none →
      parseClaudeResponseE text = Except.error parseFailMsg) ∧
    (∀ j, jsonParse (stripFencing text) = some j →
      parseClaudeResponseE text = Except.ok j) := by
  constructor
  · intro h
    simp [parseClaudeResponseE, parseClaudeResponse, h]
  · intro j h
    simp [parseClaudeResponseE, parseClaudeResponse, h]

/-- Witness for C3 (amended): an unparseable reply produces exactly the fixed
error, and a parseable one is returned. -/
theorem C3_parse_error_amended_witness :
    parseClaudeResponseE (("totally not json").toList) = Except.error parseFailMsg ∧
    parseClaudeResponseE (("\x7b\"risk_score\": 10\x7d").toList) =
      Except.ok (Json.obj [("risk_score", Json.num 10)]) :=
  ⟨(C3_parse_error_amended _).1 rfl, (C3_parse_error_amended _).2 _ rfl⟩
